import Mathlib

/-!
Verification of the movie poster recommendation program (`src/main.cpp`).

The program loads a movie catalog from a PostgreSQL database, fetches each
poster image over HTTP concurrently, resizes every image to 67×98, reduces it
to a mean-RGB vector, and ranks catalog entries by cosine distance to a query
poster.

Modelling conventions:
* pixel channel values and channel means are exact rationals (the C++ code
  stores `uchar` channels and computes means and distances in `double`/`float`;
  rounding of IEEE arithmetic is idealised away, values are exact);
* a `cv::Mat` is a `Mat`: row/column counts plus a row-major pixel list in
  OpenCV's BGR channel layout, with the cv invariant `data.length = rows*cols`;
* IEEE NaN — which the C++ produces as the `0/0` cosine distance of a
  zero-norm mean vector — is modelled as `none : Option ℝ`;
* `std::sort` is modelled by its C++ standard postcondition (a permutation of
  the input in which no later element compares `<` an earlier one), not by a
  particular sorting algorithm, since `std::sort` is unstable and its result
  on ties is implementation-defined;
* external collaborators (libcurl, cv::imdecode, libpqxx) are oracles passed
  as function arguments, with their documented failure modes made explicit.
-/

/-- One pixel in OpenCV's BGR channel order (`cv::Mat` of type `CV_8UC3`
stores blue first). Channel values are modelled as exact rationals. -/
structure Pixel where
  b : ℚ
  g : ℚ
  r : ℚ
deriving DecidableEq

/-- Model of `cv::Mat`: a `rows × cols` image stored as a row-major pixel
list, with the `cv::Mat` size invariant carried as a proof. -/
structure Mat where
  rows : ℕ
  cols : ℕ
  data : List Pixel
  hsize : data.length = rows * cols

/-- `cv::Mat::total()`: the number of pixels. -/
def Mat.total (m : Mat) : ℕ := m.rows * m.cols

/-- The default-constructed `cv::Mat()`: no rows, no columns, no data. -/
def Mat.empty : Mat := ⟨0, 0, [], rfl⟩

/-- `cv::Mat::empty()`: true iff the image has no pixels. -/
def Mat.isEmpty (m : Mat) : Bool := m.total == 0

instance : DecidableEq Mat := fun m n =>
  decidable_of_iff (m.rows = n.rows ∧ m.cols = n.cols ∧ m.data = n.data)
    (by constructor
        · rintro ⟨h1, h2, h3⟩; cases m; cases n; simp_all
        · rintro rfl; exact ⟨rfl, rfl, rfl⟩)

/-- Pixel lookup at row `y`, column `x` (row-major). Out-of-range reads give
a black pixel; all uses below stay in range. -/
def Mat.pixAt (m : Mat) (y x : ℕ) : Pixel := m.data.getD (y * m.cols + x) ⟨0, 0, 0⟩

/-- Model of `cv::resize(image, resized, cv::Size(w, h))`: the output has
exactly `h` rows and `w` columns. OpenCV's default bilinear interpolation is
modelled as nearest-neighbour sampling; no claim depends on the interpolated
pixel values, only on the output geometry. -/
def cvResize (m : Mat) (w h : ℕ) : Mat where
  rows := h
  cols := w
  data := (List.range (h * w)).map fun k =>
    m.pixAt (k / w * m.rows / h) (k % w * m.cols / w)
  hsize := by simp

/-- `preprocessImage` from `src/main.cpp` (lines 49–56): empty input is
returned unchanged as the empty image, otherwise the image is resized to
`cv::Size(67, 98)`, i.e. 67 columns and 98 rows. -/
def preprocessImage (image : Mat) : Mat :=
  if image.isEmpty then Mat.empty
  else cvResize image 67 98

/-- The channel-sum accumulation loop of `cv::mean`, in BGR order. -/
def accumPixels : List Pixel → ℚ × ℚ × ℚ → ℚ × ℚ × ℚ
  | [], acc => acc
  | p :: rest, (b, g, r) => accumPixels rest (b + p.b, g + p.g, r + p.r)

/-- Model of `cv::mean(image)`: per-channel arithmetic means as a scalar in
BGR component order; the zero scalar when the image has no pixels (OpenCV
guards the division by the pixel count). -/
def cvMean (m : Mat) : ℚ × ℚ × ℚ :=
  let s := accumPixels m.data (0, 0, 0)
  if m.total = 0 then (0, 0, 0)
  else (s.1 / m.total, s.2.1 / m.total, s.2.2 / m.total)

/-- A `cv::Vec3f`: three float components, modelled as exact rationals. -/
structure Vec3 where
  x : ℚ
  y : ℚ
  z : ℚ
deriving DecidableEq

/-- `calculateMeanRGB` from `src/main.cpp` (lines 59–62): takes `cv::mean`'s
BGR scalar and returns `cv::Vec3f(meanScalar[2], meanScalar[1],
meanScalar[0])`, i.e. the components reordered to (R, G, B). -/
def calculateMeanRGB (image : Mat) : Vec3 :=
  let meanScalar := cvMean image
  ⟨meanScalar.2.2, meanScalar.2.1, meanScalar.1⟩

/-- `cv::Vec3f::dot`. -/
def Vec3.dot (a b : Vec3) : ℚ := a.x * b.x + a.y * b.y + a.z * b.z

/-- The squared Euclidean norm (rational, exact). -/
def Vec3.normSq (a : Vec3) : ℚ := a.x ^ 2 + a.y ^ 2 + a.z ^ 2

/-- `cv::norm(v)`: the Euclidean (L2) norm, a real number. -/
noncomputable def Vec3.norm (a : Vec3) : ℝ := Real.sqrt (a.normSq : ℝ)

/-- `cosineDistance` from `src/main.cpp` (lines 65–67):
`1.0f - a.dot(b) / (cv::norm(a) * cv::norm(b))`, with no zero-norm guard.
When either norm is zero the numerator `a.dot(b)` is zero as well, so the
C++ float computation is `0/0 = NaN`; NaN is modelled as `none`. -/
noncomputable def cosineDistance (a b : Vec3) : Option ℝ :=
  open Classical in
  if a.norm * b.norm = 0 then none
  else some (1 - ((a.dot b : ℚ) : ℝ) / (a.norm * b.norm))

/-- The `Movie` struct of `src/main.cpp` (lines 13–19). -/
structure Movie where
  id : ℤ
  title : String
  genre : String
  poster_url : String
  cover : Mat
deriving DecidableEq

/-- One row of the result of
`SELECT id, title, genre, poster_link FROM movies;`. -/
structure MovieRow where
  id : ℤ
  title : String
  genre : String
  poster_link : String
deriving DecidableEq

/-- `loadImageFromURL` from `src/main.cpp` (lines 27–46). The external
libraries are oracles: `curlInit` is whether `curl_easy_init()` succeeds,
`transfer url` is the outcome of `curl_easy_perform` (`none` when
`res != CURLE_OK`, otherwise the accumulated response body), and `imdecode`
is `cv::imdecode` on the body (`none` when the bytes do not decode as an
image — OpenCV then returns an empty `cv::Mat`). Every failure path of the
C++ function returns `cv::Mat()`; nothing is thrown. -/
def loadImageFromURL (curlInit : Bool) (transfer : String → Option (List ℕ))
    (imdecode : List ℕ → Option Mat) (url : String) : Mat :=
  if curlInit then
    match transfer url with
    | some buffer =>
        match imdecode buffer with
        | some img => img
        | none => Mat.empty
    | none => Mat.empty
  else Mat.empty

/-- The first loop of `loadMoviesFromDatabase` (lines 78–87): one `Movie`
per row with the static fields copied and the cover still default-empty
(the fetch future has only been launched). -/
def rowsToMovies (rows : List MovieRow) : List Movie :=
  rows.map fun row =>
    { id := row.id, title := row.title, genre := row.genre,
      poster_url := row.poster_link, cover := Mat.empty }

/-- The second loop of `loadMoviesFromDatabase` (lines 89–91):
`movies[i].cover = preprocessImage(futures[i].get())`, index-aligned. -/
def attachCovers (movies : List Movie) (fetched : List Mat) : List Movie :=
  List.zipWith (fun movie img => { movie with cover := preprocessImage img }) movies fetched

/-- `loadMoviesFromDatabase` from `src/main.cpp` (lines 70–96). The pqxx
connection, transaction and query are external collaborators modelled by
their outcome `queryOutcome`: `Except.error e` when any of them throws
(connection refused, malformed query, …) — `pqxx::result` materialises all
rows, so a successful `exec` yields the full row list. `fetch` is the value
computed by the async `loadImageFromURL` task for a URL. Returns the catalog
together with the message written to `std::cerr` by the `catch` block
(`none` when nothing was thrown). An exception is caught before the first
row is processed, so `movies` is still empty when it is returned. -/
def loadMoviesFromDatabase (queryOutcome : Except String (List MovieRow))
    (fetch : String → Mat) : List Movie × Option String :=
  match queryOutcome with
  | Except.error e => ([], some e)
  | Except.ok rows =>
      (attachCovers (rowsToMovies rows) (rows.map fun row => fetch row.poster_link), none)

/-- One step of the fan-out completion model: the futures complete in the
order listed in `order`; completing future `j` writes
`fetch urls[j]` into slot `j` (slot = index in the row list), regardless of
when it completes. -/
def runCompletions (fetch : String → Mat) (urls : List String) :
    List ℕ → (ℕ → Option Mat) → ℕ → Option Mat
  | [], slots => slots
  | j :: rest, slots =>
      runCompletions fetch urls rest
        fun k => if k = j then some (fetch (urls.getD j "")) else slots k

/-- The comparator `a.first < b.first` of the `std::sort` call (line 110),
on IEEE floats: every comparison against NaN (`none`) is false. -/
def floatLt : Option ℝ → Option ℝ → Prop
  | some a, some b => a < b
  | _, _ => False

/-- The distance-building loop of `recommendMovies` (lines 100–107): the
vector `distances` of `(cosineDistance(inputMeanRGB, meanRGB), movie)`
pairs, in catalog order. -/
noncomputable def movieDistances (inputMovie : Movie) (movies : List Movie) :
    List (Option ℝ × Movie) :=
  movies.map fun movie =>
    (cosineDistance (calculateMeanRGB inputMovie.cover) (calculateMeanRGB movie.cover), movie)

/-- The C++ standard's `is_sorted` postcondition for `std::sort` with the
comparator of line 110: no element compares `<` its predecessor. -/
def SortedByDist (l : List (Option ℝ × Movie)) : Prop :=
  l.Chain' fun a b => ¬ floatLt b.1 a.1

/-- `recommendMovies` from `src/main.cpp` (lines 99–118), as a relation
between its arguments and its possible return values. `std::sort` is
unstable and, with the NaN distances an empty cover produces, its comparator
is not even a strict weak order; the sort is therefore modelled by its
postcondition — the sorted vector is some permutation of `distances` in
which no later element compares `<` an earlier one. The loop of lines
114–116 then copies the first `min(topN, (int)distances.size())` movies. -/
def recommendMoviesRel (inputMovie : Movie) (movies : List Movie) (topN : ℤ)
    (result : List Movie) : Prop :=
  ∃ sorted : List (Option ℝ × Movie),
    (movieDistances inputMovie movies).Perm sorted ∧
    SortedByDist sorted ∧
    result = (sorted.take (min topN (sorted.length : ℤ)).toNat).map Prod.snd

/-! Concrete fixtures used by counterexamples and witnesses. -/

/-- A 1×1 red image (BGR pixel (0, 0, 2)). -/
def redMat : Mat := ⟨1, 1, [⟨0, 0, 2⟩], rfl⟩

/-- A 1×1 yellow image (BGR pixel (0, 2, 2)). -/
def yellowMat : Mat := ⟨1, 1, [⟨0, 2, 2⟩], rfl⟩

/-- A query entry with a red cover. -/
def queryMovie : Movie := ⟨0, "query", "N/A", "http://q", redMat⟩

/-- A catalog entry whose cover loaded fine (yellow). -/
def validMovie : Movie := ⟨1, "valid", "drama", "http://a", yellowMat⟩

/-- A catalog entry whose cover failed to load: empty bitmap. -/
def failedMovie : Movie := ⟨2, "failed", "drama", "http://c", Mat.empty⟩

/-- First of two catalog entries with identical (red) covers. -/
def tiedMovieA : Movie := ⟨3, "tieA", "drama", "http://ta", redMat⟩

/-- Second of two catalog entries with identical (red) covers. -/
def tiedMovieB : Movie := ⟨4, "tieB", "drama", "http://tb", redMat⟩

/-- A transfer oracle for which every URL fails (`res != CURLE_OK`). -/
def noTransfer : String → Option (List ℕ) := fun _ => none

/-- A decode oracle for which no byte buffer is a valid image. -/
def noDecode : List ℕ → Option Mat := fun _ => none

/-- A transfer oracle that always succeeds with an empty body. -/
def okTransfer : String → Option (List ℕ) := fun _ => some []

/-- A 1×2 image with two distinct pixels, for mean-value evaluation. -/
def twoPixMat : Mat := ⟨1, 2, [⟨0, 1, 2⟩, ⟨4, 5, 6⟩], rfl⟩

/-- The initial completion state: no future has completed yet. -/
def noSlots : ℕ → Option Mat := fun _ => none

/-- A database row fixture. -/
def rowOne : MovieRow := ⟨1, "t1", "g1", "u1"⟩

/-- A second database row fixture. -/
def rowTwo : MovieRow := ⟨2, "t2", "g2", "u2"⟩

/-- A fetch oracle distinguishing the two row fixtures' URLs. -/
def fetchOracle : String → Mat := fun url => if url = "u1" then redMat else yellowMat

/-! Supporting lemmas. -/

theorem Mat.ext' {m n : Mat} (hr : m.rows = n.rows) (hc : m.cols = n.cols)
    (hd : m.data = n.data) : m = n := by
  cases m; cases n; simp_all

theorem accumPixels_eq_sum (l : List Pixel) (b g r : ℚ) :
    accumPixels l (b, g, r) =
      (b + (l.map Pixel.b).sum, g + (l.map Pixel.g).sum, r + (l.map Pixel.r).sum) := by
  induction l generalizing b g r with
  | nil => simp [accumPixels]
  | cons p rest ih =>
      simp only [accumPixels, ih, List.map_cons, List.sum_cons]
      refine Prod.ext ?_ (Prod.ext ?_ ?_) <;> simp <;> ring

theorem calculateMeanRGB_empty (image : Mat) (h : image.total = 0) :
    calculateMeanRGB image = ⟨0, 0, 0⟩ := by
  simp [calculateMeanRGB, cvMean, h]

theorem calculateMeanRGB_eq (image : Mat) (h : image.total ≠ 0) :
    calculateMeanRGB image =
      ⟨(image.data.map Pixel.r).sum / image.total,
       (image.data.map Pixel.g).sum / image.total,
       (image.data.map Pixel.b).sum / image.total⟩ := by
  unfold calculateMeanRGB cvMean
  rw [accumPixels_eq_sum]
  simp [h]

theorem Vec3.normSq_nonneg (a : Vec3) : 0 ≤ a.normSq := by
  have hx := sq_nonneg a.x
  have hy := sq_nonneg a.y
  have hz := sq_nonneg a.z
  unfold Vec3.normSq; linarith

theorem Vec3.normSq_eq_zero_iff (a : Vec3) : a.normSq = 0 ↔ a = ⟨0, 0, 0⟩ := by
  constructor
  · intro h
    have hx := sq_nonneg a.x
    have hy := sq_nonneg a.y
    have hz := sq_nonneg a.z
    unfold Vec3.normSq at h
    obtain ⟨x, y, z⟩ := a
    simp only at hx hy hz h
    have h1 : x ^ 2 = 0 := by linarith
    have h2 : y ^ 2 = 0 := by linarith
    have h3 : z ^ 2 = 0 := by linarith
    simp only [Vec3.mk.injEq]
    exact ⟨pow_eq_zero_iff two_ne_zero |>.mp h1,
           pow_eq_zero_iff two_ne_zero |>.mp h2,
           pow_eq_zero_iff two_ne_zero |>.mp h3⟩
  · intro h; subst h; simp [Vec3.normSq]

theorem Vec3.norm_eq_zero_iff (a : Vec3) : a.norm = 0 ↔ a.normSq = 0 := by
  unfold Vec3.norm
  rw [Real.sqrt_eq_zero (by exact_mod_cast a.normSq_nonneg)]
  exact_mod_cast Iff.rfl

theorem Vec3.norm_nonneg (a : Vec3) : 0 ≤ a.norm := Real.sqrt_nonneg _

theorem cosineDistance_eq_none_iff (a b : Vec3) :
    cosineDistance a b = none ↔ a.normSq = 0 ∨ b.normSq = 0 := by
  unfold cosineDistance
  split
  · rename_i h
    rcases mul_eq_zero.mp h with h' | h'
    · simp [(a.norm_eq_zero_iff).mp h']
    · simp [(b.norm_eq_zero_iff).mp h']
  · rename_i h
    simp only [reduceCtorEq, false_iff]
    rintro (h' | h')
    · exact h (by rw [(a.norm_eq_zero_iff).mpr h', zero_mul])
    · exact h (by rw [(b.norm_eq_zero_iff).mpr h', mul_zero])

theorem cosineDistance_self (v : Vec3) (hv : v.normSq ≠ 0) :
    cosineDistance v v = some 0 := by
  have hpos : (0 : ℝ) < (v.normSq : ℝ) := by
    exact_mod_cast lt_of_le_of_ne v.normSq_nonneg (Ne.symm hv)
  have hnorm : v.norm * v.norm = (v.normSq : ℝ) :=
    Real.mul_self_sqrt (le_of_lt hpos)
  have hne : v.norm * v.norm ≠ 0 := by rw [hnorm]; exact ne_of_gt hpos
  have hdot : v.dot v = v.normSq := by unfold Vec3.dot Vec3.normSq; ring
  unfold cosineDistance
  rw [if_neg hne, hdot, hnorm, div_self (ne_of_gt hpos)]
  simp

theorem cosineDistance_comm (a b : Vec3) :
    cosineDistance a b = cosineDistance b a := by
  have hdot : a.dot b = b.dot a := by unfold Vec3.dot; ring
  unfold cosineDistance
  rw [hdot, mul_comm a.norm b.norm]

theorem not_floatLt_none_right (a : Option ℝ) : ¬ floatLt a none := by
  cases a <;> exact fun h => h

theorem not_floatLt_none_left (b : Option ℝ) : ¬ floatLt none b := by
  cases b <;> exact fun h => h

theorem not_floatLt_self (a : Option ℝ) : ¬ floatLt a a := by
  cases a with
  | none => exact fun h => h
  | some x => exact fun h => lt_irrefl x h

theorem cosineDistance_ne_none (a b : Vec3) (ha : a.normSq ≠ 0) (hb : b.normSq ≠ 0) :
    cosineDistance a b ≠ none := fun h => by
  rcases (cosineDistance_eq_none_iff a b).mp h with h' | h'
  · exact ha h'
  · exact hb h'

theorem movieDistances_length (inputMovie : Movie) (movies : List Movie) :
    (movieDistances inputMovie movies).length = movies.length := by
  simp [movieDistances]

theorem fst_of_mem_movieDistances (inputMovie : Movie) (movies : List Movie)
    (p : Option ℝ × Movie) (hp : p ∈ movieDistances inputMovie movies) :
    p.1 = cosineDistance (calculateMeanRGB inputMovie.cover) (calculateMeanRGB p.2.cover) := by
  simp only [movieDistances, List.mem_map] at hp
  obtain ⟨m, _, rfl⟩ := hp
  rfl

theorem recommendMoviesRel_length (inputMovie : Movie) (movies : List Movie)
    (topN : ℤ) (result : List Movie)
    (h : recommendMoviesRel inputMovie movies topN result) :
    result.length = min topN.toNat movies.length := by
  obtain ⟨sorted, hperm, _, hres⟩ := h
  have hlen : sorted.length = movies.length := by
    rw [← hperm.length_eq, movieDistances_length]
  subst hres
  rw [List.length_map, List.length_take, hlen]
  omega

theorem recommendMoviesRel_sorted (inputMovie : Movie) (movies : List Movie)
    (topN : ℤ) (result : List Movie)
    (h : recommendMoviesRel inputMovie movies topN result) :
    (result.map fun m =>
        cosineDistance (calculateMeanRGB inputMovie.cover) (calculateMeanRGB m.cover)).Chain'
      fun a b => ¬ floatLt b a := by
  obtain ⟨sorted, hperm, hsort, hres⟩ := h
  subst hres
  rw [List.map_map]
  have hmem : ∀ p ∈ sorted.take (min topN (sorted.length : ℤ)).toNat,
      ((fun m => cosineDistance (calculateMeanRGB inputMovie.cover)
          (calculateMeanRGB m.cover)) ∘ Prod.snd) p = p.1 := by
    intro p hp
    have hp' : p ∈ sorted := List.mem_of_mem_take hp
    exact (fst_of_mem_movieDistances inputMovie movies p (hperm.mem_iff.mpr hp')).symm
  rw [List.map_congr_left hmem]
  rw [List.chain'_map]
  exact hsort.take _

theorem chain'_imp_mem {α : Type} {R S : α → α → Prop} {P : α → Prop}
    (himp : ∀ a b, P a → P b → R a b → S a b) :
    ∀ l : List α, l.Chain' R → (∀ a ∈ l, P a) → l.Chain' S := by
  intro l
  induction l with
  | nil => intro _ _; exact List.chain'_nil
  | cons a t ih =>
      intro hc hP
      cases t with
      | nil => simp
      | cons b t' =>
          rw [List.chain'_cons] at hc ⊢
          exact ⟨himp a b (hP a (by simp)) (hP b (by simp [List.mem_cons])) hc.1,
                 ih hc.2 fun x hx => hP x (List.mem_cons_of_mem a hx)⟩

theorem sortedByDist_unique (l₁ l₂ : List (Option ℝ × Movie))
    (hperm : l₁.Perm l₂)
    (hsome : ∀ p ∈ l₁, p.1 ≠ none)
    (hnodup : (l₁.map Prod.fst).Nodup)
    (h₁ : SortedByDist l₁) (h₂ : SortedByDist l₂) : l₁ = l₂ := by
  have hsome₂ : ∀ p ∈ l₂, p.1 ≠ none := fun p hp => hsome p (hperm.mem_iff.mpr hp)
  have hnodup₂ : (l₂.map Prod.fst).Nodup := ((hperm.map Prod.fst).nodup_iff).mp hnodup
  -- weak key order, globally transitive
  have hle : ∀ l : List (Option ℝ × Movie), SortedByDist l → (∀ p ∈ l, p.1 ≠ none) →
      l.Chain' fun a b => a.1.getD 0 ≤ b.1.getD 0 := by
    intro l hs hsm
    refine chain'_imp_mem ?_ l hs hsm
    intro a b ha hb hab
    rcases Option.ne_none_iff_exists'.mp ha with ⟨x, hx⟩
    rcases Option.ne_none_iff_exists'.mp hb with ⟨y, hy⟩
    rw [hx, hy]
    rw [hx, hy] at hab
    simpa [floatLt, Option.getD] using le_of_not_lt (by simpa [floatLt] using hab)
  have hpair₁ : l₁.Pairwise fun a b => a.1.getD 0 ≤ b.1.getD 0 := by
    haveI : IsTrans (Option ℝ × Movie) (fun a b => a.1.getD 0 ≤ b.1.getD 0) :=
      ⟨fun _ _ _ hab hbc => le_trans hab hbc⟩
    exact List.chain'_iff_pairwise.mp (hle l₁ h₁ hsome)
  have hpair₂ : l₂.Pairwise fun a b => a.1.getD 0 ≤ b.1.getD 0 := by
    haveI : IsTrans (Option ℝ × Movie) (fun a b => a.1.getD 0 ≤ b.1.getD 0) :=
      ⟨fun _ _ _ hab hbc => le_trans hab hbc⟩
    exact List.chain'_iff_pairwise.mp (hle l₂ h₂ hsome₂)
  have hne₁ : l₁.Pairwise fun a b => a.1 ≠ b.1 := List.pairwise_map.mp hnodup
  have hne₂ : l₂.Pairwise fun a b => a.1 ≠ b.1 := List.pairwise_map.mp hnodup₂
  have hstrict : ∀ l : List (Option ℝ × Movie), (∀ p ∈ l, p.1 ≠ none) →
      l.Pairwise (fun a b => a.1.getD 0 ≤ b.1.getD 0) → l.Pairwise (fun a b => a.1 ≠ b.1) →
      l.Pairwise fun a b => a.1.getD 0 < b.1.getD 0 := by
    intro l hsm hle' hne'
    refine (hle'.and hne').imp_of_mem ?_
    intro a b ha hb hab
    rcases Option.ne_none_iff_exists'.mp (hsm a ha) with ⟨x, hx⟩
    rcases Option.ne_none_iff_exists'.mp (hsm b hb) with ⟨y, hy⟩
    refine lt_of_le_of_ne hab.1 ?_
    intro hxy
    exact hab.2 (by rw [hx, hy]; rw [hx, hy] at hxy; simpa using hxy)
  haveI : IsAntisymm (Option ℝ × Movie) (fun a b => a.1.getD 0 < b.1.getD 0) :=
    ⟨fun _ _ hab hba => absurd hba (not_lt.mpr (le_of_lt hab))⟩
  exact List.eq_of_perm_of_sorted hperm
    (hstrict l₁ hsome hpair₁ hne₁) (hstrict l₂ hsome₂ hpair₂ hne₂)

theorem attachCovers_rows (rows : List MovieRow) (fetch : String → Mat) :
    attachCovers (rowsToMovies rows) (rows.map fun row => fetch row.poster_link) =
      rows.map fun row =>
        { id := row.id, title := row.title, genre := row.genre,
          poster_url := row.poster_link,
          cover := preprocessImage (fetch row.poster_link) } := by
  induction rows with
  | nil => rfl
  | cons r t ih =>
      simp only [rowsToMovies, List.map_cons, attachCovers, List.zipWith_cons_cons]
      refine congrArg₂ List.cons rfl ?_
      exact ih

theorem runCompletions_not_mem (fetch : String → Mat) (urls : List String) :
    ∀ (order : List ℕ) (slots : ℕ → Option Mat) (i : ℕ), i ∉ order →
      runCompletions fetch urls order slots i = slots i := by
  intro order
  induction order with
  | nil => intro slots i _; rfl
  | cons j rest ih =>
      intro slots i hi
      have hij : i ≠ j := fun h => hi (h ▸ List.mem_cons_self j rest)
      have hirest : i ∉ rest := fun h => hi (List.mem_cons_of_mem j h)
      simp only [runCompletions]
      rw [ih _ i hirest]
      simp [hij]

theorem runCompletions_mem (fetch : String → Mat) (urls : List String) :
    ∀ (order : List ℕ) (slots : ℕ → Option Mat) (i : ℕ), i ∈ order →
      runCompletions fetch urls order slots i = some (fetch (urls.getD i "")) := by
  intro order
  induction order with
  | nil => intro _ i hi; cases hi
  | cons j rest ih =>
      intro slots i hi
      by_cases hmem : i ∈ rest
      · simp only [runCompletions]
        exact ih _ i hmem
      · have hij : i = j := by
          rcases List.mem_cons.mp hi with h | h
          · exact h
          · exact absurd h hmem
        subst hij
        simp only [runCompletions]
        rw [runCompletions_not_mem fetch urls rest _ i hmem]
        simp

/-! Claim theorems. -/

/-- C3: for every connection string (modelled by the failure message of the
thrown pqxx exception) and every fetch behaviour, when the store query fails
`loadMoviesFromDatabase` returns the empty catalog — `movies` is still empty
when the exception is caught — together with the failure message written to
`std::cerr`; the exception is absorbed, not rethrown (the function totally
returns a value). -/
theorem loadMovies_query_failure (e : String) (fetch : String → Mat) :
    loadMoviesFromDatabase (Except.error e) fetch = ([], some e) := rfl

/-- C5: `preprocessImage` returns the empty bitmap on empty input, and
otherwise an image of exactly the canonical resolution: 67 columns × 98
rows (`cv::Size(67, 98)`). -/
theorem preprocessImage_geometry (image : Mat) :
    (image.isEmpty = true → preprocessImage image = Mat.empty)
  ∧ (image.isEmpty = false →
      (preprocessImage image).cols = 67 ∧ (preprocessImage image).rows = 98) := by
  constructor
  · intro h; simp [preprocessImage, h]
  · intro h; simp [preprocessImage, h, cvResize]

/-- Witness for C5: the empty image passes through unchanged, and a concrete
1×1 image is resized to 67×98. -/
theorem preprocessImage_geometry_witness :
    (Mat.empty.isEmpty = true ∧ preprocessImage Mat.empty = Mat.empty)
  ∧ (redMat.isEmpty = false ∧
      (preprocessImage redMat).cols = 67 ∧ (preprocessImage redMat).rows = 98) :=
  ⟨⟨by decide, (preprocessImage_geometry Mat.empty).1 (by decide)⟩,
   ⟨by decide, (preprocessImage_geometry redMat).2 (by decide)⟩⟩

/-- C7: `calculateMeanRGB` yields the zero vector on an empty bitmap, and on
a non-empty bitmap the arithmetic mean of each colour channel over all
pixels, in the fixed order (R, G, B) — the components of `cv::mean`'s BGR
scalar reversed. The same function produces both the catalog vectors and the
query vector (lines 101 and 104 of `recommendMovies`). -/
theorem calculateMeanRGB_is_channel_mean (image : Mat) :
    (image.total = 0 → calculateMeanRGB image = ⟨0, 0, 0⟩)
  ∧ (image.total ≠ 0 →
      calculateMeanRGB image =
        ⟨(image.data.map Pixel.r).sum / image.total,
         (image.data.map Pixel.g).sum / image.total,
         (image.data.map Pixel.b).sum / image.total⟩) :=
  ⟨calculateMeanRGB_empty image, calculateMeanRGB_eq image⟩

/-- Witness for C7: on a concrete 1×2 image with pixels BGR (0,1,2) and
(4,5,6) the mean vector is (R,G,B) = (4,3,2), and the empty image gives the
zero vector. -/
theorem calculateMeanRGB_is_channel_mean_witness :
    (twoPixMat.total ≠ 0 ∧ calculateMeanRGB twoPixMat = ⟨4, 3, 2⟩)
  ∧ (Mat.empty.total = 0 ∧ calculateMeanRGB Mat.empty = ⟨0, 0, 0⟩) :=
  ⟨⟨by decide, by
      rw [(calculateMeanRGB_is_channel_mean twoPixMat).2 (by decide)]
      simp only [twoPixMat, Mat.total, Vec3.mk.injEq]
      norm_num⟩,
   ⟨rfl, (calculateMeanRGB_is_channel_mean Mat.empty).1 rfl⟩⟩

/-- C8: `cosineDistance v v = 0` for every nonzero vector `v`, and
`cosineDistance` is symmetric (float arithmetic idealised as exact reals;
for a zero vector the self-distance is NaN, hence the nonzero hypothesis). -/
theorem cosineDistance_self_and_comm :
    (∀ v : Vec3, v ≠ ⟨0, 0, 0⟩ → cosineDistance v v = some 0)
  ∧ ∀ a b : Vec3, cosineDistance a b = cosineDistance b a :=
  ⟨fun v hv => cosineDistance_self v fun h => hv ((Vec3.normSq_eq_zero_iff v).mp h),
   cosineDistance_comm⟩

/-- Witness for C8: self-distance zero at the concrete nonzero vector
(1, 2, 3). -/
theorem cosineDistance_self_and_comm_witness :
    ((⟨1, 2, 3⟩ : Vec3) ≠ ⟨0, 0, 0⟩)
  ∧ cosineDistance ⟨1, 2, 3⟩ ⟨1, 2, 3⟩ = some 0 :=
  ⟨by decide, cosineDistance_self_and_comm.1 ⟨1, 2, 3⟩ (by decide)⟩

/-- C9: `loadImageFromURL` is a total function (no error reaches the
caller); it returns the empty bitmap when curl initialisation fails, when
the transfer fails (`res != CURLE_OK`), and when the response body does not
decode as an image. -/
theorem loadImageFromURL_failure_paths (curlInit : Bool)
    (transfer : String → Option (List ℕ)) (imdecode : List ℕ → Option Mat)
    (url : String) :
    (curlInit = false → loadImageFromURL curlInit transfer imdecode url = Mat.empty)
  ∧ (transfer url = none → loadImageFromURL curlInit transfer imdecode url = Mat.empty)
  ∧ (∀ buffer, transfer url = some buffer → imdecode buffer = none →
      loadImageFromURL curlInit transfer imdecode url = Mat.empty) := by
  refine ⟨fun h => by simp [loadImageFromURL, h], fun h => ?_, fun buffer h1 h2 => ?_⟩
  · cases curlInit <;> simp [loadImageFromURL, h]
  · cases curlInit <;> simp [loadImageFromURL, h1, h2]

/-- Witness for C9: a failing transfer and an undecodable body both yield
the empty bitmap at a concrete URL. -/
theorem loadImageFromURL_failure_paths_witness :
    (noTransfer "http://x" = none
      ∧ loadImageFromURL true noTransfer noDecode "http://x" = Mat.empty)
  ∧ (okTransfer "http://x" = some [] ∧ noDecode [] = none
      ∧ loadImageFromURL true okTransfer noDecode "http://x" = Mat.empty) :=
  ⟨⟨rfl, (loadImageFromURL_failure_paths true noTransfer noDecode "http://x").2.1 rfl⟩,
   ⟨rfl, rfl,
    (loadImageFromURL_failure_paths true okTransfer noDecode "http://x").2.2 [] rfl rfl⟩⟩

theorem mean_redMat : calculateMeanRGB redMat = ⟨2, 0, 0⟩ := by
  rw [calculateMeanRGB_eq redMat (by decide)]
  simp only [redMat, Mat.total, Vec3.mk.injEq]
  norm_num

theorem mean_yellowMat : calculateMeanRGB yellowMat = ⟨2, 2, 0⟩ := by
  rw [calculateMeanRGB_eq yellowMat (by decide)]
  simp only [yellowMat, Mat.total, Vec3.mk.injEq]
  norm_num

/-- C4: every possible return of `recommendMovies` has exactly
`min(topN, |catalog|)` entries (a negative `topN` clamps to zero, cf. C10),
no returned entry's distance compares `<` its predecessor's (the distances
are non-decreasing; with NaN distances the comparator is everywhere-false,
which is what the code sorts by), and on the empty catalog the result is
empty for every query. -/
theorem recommendMovies_count_and_order (inputMovie : Movie) (movies : List Movie)
    (topN : ℤ) (result : List Movie)
    (h : recommendMoviesRel inputMovie movies topN result) :
    result.length = min topN.toNat movies.length
  ∧ ((result.map fun m => cosineDistance (calculateMeanRGB inputMovie.cover)
        (calculateMeanRGB m.cover)).Chain' fun a b => ¬ floatLt b a)
  ∧ (movies = [] → result = []) := by
  refine ⟨recommendMoviesRel_length _ _ _ _ h, recommendMoviesRel_sorted _ _ _ _ h, ?_⟩
  intro he
  have hl := recommendMoviesRel_length _ _ _ _ h
  subst he
  simp only [List.length_nil, Nat.min_zero] at hl
  exact List.length_eq_zero.mp hl

/-- Witness for C4 at a concrete one-entry catalog with `topN = 5`. -/
theorem recommendMovies_count_and_order_witness :
    recommendMoviesRel queryMovie [validMovie] 5 [validMovie]
  ∧ ([validMovie] : List Movie).length = min (Int.toNat 5) [validMovie].length := by
  have hrel : recommendMoviesRel queryMovie [validMovie] 5 [validMovie] := by
    refine ⟨movieDistances queryMovie [validMovie], List.Perm.refl _, ?_, ?_⟩
    · simp [movieDistances, SortedByDist]
    · simp [movieDistances]
  exact ⟨hrel, (recommendMovies_count_and_order _ _ _ _ hrel).1⟩

/-- C10: for every non-positive `topN`, `min(topN, (int)distances.size())`
is non-positive, the copy loop runs zero iterations, and every possible
return of `recommendMovies` is the empty list. -/
theorem recommendMovies_nonpositive_topN (inputMovie : Movie) (movies : List Movie)
    (topN : ℤ) (result : List Movie) (htop : topN ≤ 0)
    (h : recommendMoviesRel inputMovie movies topN result) : result = [] := by
  have hl := recommendMoviesRel_length _ _ _ _ h
  rw [Int.toNat_of_nonpos htop] at hl
  rw [Nat.zero_min] at hl
  exact List.length_eq_zero.mp hl

/-- Witness for C10 at `topN = -1` on a non-empty catalog. -/
theorem recommendMovies_nonpositive_topN_witness :
    ((-1 : ℤ) ≤ 0 ∧ recommendMoviesRel queryMovie [validMovie] (-1) [])
  ∧ ([] : List Movie) = [] := by
  have hrel : recommendMoviesRel queryMovie [validMovie] (-1) [] := by
    refine ⟨movieDistances queryMovie [validMovie], List.Perm.refl _, ?_, ?_⟩
    · simp [movieDistances, SortedByDist]
    · simp [movieDistances]
  exact ⟨⟨by norm_num, hrel⟩,
         recommendMovies_nonpositive_topN _ _ _ _ (by norm_num) hrel⟩

/-- C1, evaluated at the failing input: the claim's exclusion policy is NOT
implemented. An entry whose cover failed to load has the zero mean vector,
its distance to the query is NaN (`none`) — not a sentinel, and it is not
skipped — and the sort postcondition (all `std::sort` guarantees, and with a
non-strict-weak-order comparator not even that) admits the output that ranks
the failed entry FIRST, above a valid non-degenerate match. -/
theorem degenerate_entry_can_rank_first :
    cosineDistance (calculateMeanRGB queryMovie.cover) (calculateMeanRGB failedMovie.cover)
      = none
  ∧ recommendMoviesRel queryMovie [validMovie, failedMovie] 2 [failedMovie, validMovie] := by
  have hmean : calculateMeanRGB failedMovie.cover = ⟨0, 0, 0⟩ :=
    calculateMeanRGB_empty _ (by decide)
  have hnone : cosineDistance (calculateMeanRGB queryMovie.cover)
      (calculateMeanRGB failedMovie.cover) = none := by
    apply (cosineDistance_eq_none_iff _ _).mpr
    right
    rw [hmean]
    norm_num [Vec3.normSq]
  refine ⟨hnone, ?_⟩
  refine ⟨[(none, failedMovie),
           (cosineDistance (calculateMeanRGB queryMovie.cover)
              (calculateMeanRGB validMovie.cover), validMovie)], ?_, ?_, ?_⟩
  · have hd : movieDistances queryMovie [validMovie, failedMovie] =
        [(cosineDistance (calculateMeanRGB queryMovie.cover)
            (calculateMeanRGB validMovie.cover), validMovie),
         (none, failedMovie)] := by
      simp [movieDistances, hnone]
    rw [hd]
    exact List.Perm.swap _ _ _
  · exact List.chain'_pair.mpr (not_floatLt_none_right _)
  · norm_num

/-- C2 counterexample: two catalog entries with identical covers are tied at
the same distance; the swapped output `[tiedMovieB, tiedMovieA]` — ties NOT
broken by catalog order — satisfies everything `std::sort` guarantees, just
as the catalog-order output does, so "ties broken by original catalog order"
and "identical catalog + query always yield the identical ranked order" both
fail for the code. -/
theorem tied_entries_can_swap :
    recommendMoviesRel queryMovie [tiedMovieA, tiedMovieB] 5 [tiedMovieB, tiedMovieA]
  ∧ recommendMoviesRel queryMovie [tiedMovieA, tiedMovieB] 5 [tiedMovieA, tiedMovieB]
  ∧ [tiedMovieB, tiedMovieA] ≠ [tiedMovieA, tiedMovieB] := by
  have hd : movieDistances queryMovie [tiedMovieA, tiedMovieB] =
      [(cosineDistance (calculateMeanRGB queryMovie.cover) (calculateMeanRGB redMat),
        tiedMovieA),
       (cosineDistance (calculateMeanRGB queryMovie.cover) (calculateMeanRGB redMat),
        tiedMovieB)] := rfl
  refine ⟨?_, ?_, ?_⟩
  · refine ⟨[(cosineDistance (calculateMeanRGB queryMovie.cover)
        (calculateMeanRGB redMat), tiedMovieB),
      (cosineDistance (calculateMeanRGB queryMovie.cover)
        (calculateMeanRGB redMat), tiedMovieA)], ?_, ?_, ?_⟩
    · rw [hd]; exact List.Perm.swap _ _ _
    · exact List.chain'_pair.mpr (not_floatLt_self _)
    · norm_num
  · refine ⟨movieDistances queryMovie [tiedMovieA, tiedMovieB],
      List.Perm.refl _, ?_, ?_⟩
    · rw [hd]; exact List.chain'_pair.mpr (not_floatLt_self _)
    · rw [hd]; norm_num
  · decide

/-- C2 (amended): `recommendMovies` computes the distance from the query to
every entry and returns an ascending-sorted prefix, but `std::sort` is not
stable, so the order of tied (or NaN-distance) entries is not determined by
catalog order; when all computed distances are valid (non-NaN) and pairwise
distinct, the ranked order is uniquely determined — identical catalog and
query then give the identical output. -/
theorem recommendMovies_deterministic_of_distinct (inputMovie : Movie)
    (movies : List Movie) (topN : ℤ) (out₁ out₂ : List Movie)
    (hsome : ∀ p ∈ movieDistances inputMovie movies, p.1 ≠ none)
    (hnodup : ((movieDistances inputMovie movies).map Prod.fst).Nodup)
    (h₁ : recommendMoviesRel inputMovie movies topN out₁)
    (h₂ : recommendMoviesRel inputMovie movies topN out₂) : out₁ = out₂ := by
  obtain ⟨s₁, hp₁, hs₁, hr₁⟩ := h₁
  obtain ⟨s₂, hp₂, hs₂, hr₂⟩ := h₂
  have hperm : s₁.Perm s₂ := hp₁.symm.trans hp₂
  have hsome₁ : ∀ p ∈ s₁, p.1 ≠ none := fun p hp => hsome p (hp₁.mem_iff.mpr hp)
  have hnodup₁ : (s₁.map Prod.fst).Nodup := ((hp₁.map Prod.fst).nodup_iff).mp hnodup
  have hs : s₁ = s₂ := sortedByDist_unique s₁ s₂ hperm hsome₁ hnodup₁ hs₁ hs₂
  rw [hr₁, hr₂, hs]

/-- Witness for amended C2: a one-entry catalog with a valid cover has a
valid (non-NaN), trivially pairwise-distinct distance; determinism follows
from the theorem. -/
theorem recommendMovies_deterministic_witness :
    cosineDistance (calculateMeanRGB queryMovie.cover) (calculateMeanRGB validMovie.cover)
      ≠ none
  ∧ recommendMoviesRel queryMovie [validMovie] 5 [validMovie]
  ∧ ([validMovie] : List Movie) = [validMovie] := by
  have hne : cosineDistance (calculateMeanRGB queryMovie.cover)
      (calculateMeanRGB validMovie.cover) ≠ none := by
    apply cosineDistance_ne_none
    · show (calculateMeanRGB redMat).normSq ≠ 0
      rw [mean_redMat]; norm_num [Vec3.normSq]
    · show (calculateMeanRGB yellowMat).normSq ≠ 0
      rw [mean_yellowMat]; norm_num [Vec3.normSq]
  have hrel : recommendMoviesRel queryMovie [validMovie] 5 [validMovie] := by
    refine ⟨movieDistances queryMovie [validMovie], List.Perm.refl _, ?_, ?_⟩
    · simp [movieDistances, SortedByDist]
    · simp [movieDistances]
  have hsome : ∀ p ∈ movieDistances queryMovie [validMovie], p.1 ≠ none := by
    intro p hp
    simp only [movieDistances, List.map_cons, List.map_nil, List.mem_singleton] at hp
    rw [hp]
    exact hne
  have hnodup : ((movieDistances queryMovie [validMovie]).map Prod.fst).Nodup := by
    simp [movieDistances]
  exact ⟨hne, hrel,
    recommendMovies_deterministic_of_distinct _ _ _ _ _ hsome hnodup hrel hrel⟩

/-- C6: on a successful query the catalog preserves row order — entry `i` is
built from row `i` — with its cover the normalized result of fetching row
`i`'s poster URL (positional, index-aligned: `futures[i]` belongs to
`movies[i]`); and for EVERY completion order of the concurrent fetches (any
permutation of the future indices) the value collected in slot `i` is the
fetch of row `i`'s URL, so the final catalog does not depend on the order in
which the fetches complete. -/
theorem loadMovies_positional (rows : List MovieRow) (fetch : String → Mat) :
    (loadMoviesFromDatabase (Except.ok rows) fetch).1.length = rows.length
  ∧ (∀ (i : ℕ) (row : MovieRow), rows[i]? = some row →
      (loadMoviesFromDatabase (Except.ok rows) fetch).1[i]? =
        some ({ id := row.id, title := row.title, genre := row.genre,
                poster_url := row.poster_link,
                cover := preprocessImage (fetch row.poster_link) : Movie }))
  ∧ ∀ order : List ℕ, order.Perm (List.range rows.length) →
      ∀ (i : ℕ) (row : MovieRow), rows[i]? = some row →
        runCompletions fetch (rows.map MovieRow.poster_link) order noSlots i =
          some (fetch row.poster_link) := by
  refine ⟨?_, ?_, ?_⟩
  · simp [loadMoviesFromDatabase, attachCovers_rows]
  · intro i row hi
    simp only [loadMoviesFromDatabase, attachCovers_rows, List.getElem?_map, hi,
      Option.map_some']
  · intro order hperm i row hi
    have hlt : i < rows.length := by
      by_contra hge
      rw [List.getElem?_eq_none (le_of_not_lt hge)] at hi
      exact Option.noConfusion hi
    have hmem : i ∈ order := hperm.mem_iff.mpr (List.mem_range.mpr hlt)
    rw [runCompletions_mem fetch _ order noSlots i hmem]
    have hurl : (rows.map MovieRow.poster_link).getD i "" = row.poster_link := by
      rw [List.getD_eq_getElem?_getD, List.getElem?_map, hi]
      rfl
    rw [hurl]

/-- Witness for C6: a two-row catalog whose fetches complete in reverse
order `[1, 0]` still collects row 0's fetch in slot 0, and entry 0 of the
catalog is built from row 0. -/
theorem loadMovies_positional_witness :
    ([1, 0] : List ℕ).Perm (List.range [rowOne, rowTwo].length)
  ∧ [rowOne, rowTwo][0]? = some rowOne
  ∧ (loadMoviesFromDatabase (Except.ok [rowOne, rowTwo]) fetchOracle).1[0]? =
      some ({ id := rowOne.id, title := rowOne.title, genre := rowOne.genre,
              poster_url := rowOne.poster_link,
              cover := preprocessImage (fetchOracle rowOne.poster_link) : Movie })
  ∧ runCompletions fetchOracle ([rowOne, rowTwo].map MovieRow.poster_link) [1, 0]
      noSlots 0 = some (fetchOracle rowOne.poster_link) := by
  refine ⟨by decide, rfl, ?_, ?_⟩
  · exact (loadMovies_positional [rowOne, rowTwo] fetchOracle).2.1 0 rowOne rfl
  · exact (loadMovies_positional [rowOne, rowTwo] fetchOracle).2.2 [1, 0] (by decide)
      0 rowOne rfl
